import Mathlib

/-!
Verification development for the DDPG core in `DDPG/main_classes.py`.

The Python classes `Replay_Memory`, `Critic`, `Actor` and `DDPGagent` are
shallowly embedded below.  Container code and parameter bookkeeping are
modelled computably (lists over `ℚ` or generic element types); the numeric
forward passes and the automatic-differentiation behaviour of the training
step are modelled over `ℝ` in a small expression language further down.
-/

namespace DDPG

/-! ### Replay_Memory (`main_classes.py`, lines 59-105)

The buffer is a `collections.deque(maxlen = max_size)`: appending at
capacity evicts the oldest element.  `push` wraps the reward as the
single-element array `np.array([reward])` before storing the tuple. -/

/-- One stored experience tuple `(state, action, np.array([reward]), next_state, done)`
exactly as built by `Replay_Memory.push` (line 69). -/
structure Transition (σ τ ρ : Type) where
  state : σ
  action : τ
  reward : List ρ
  next_state : σ
  done : Bool
  deriving DecidableEq, Repr

/-- `collections.deque(maxlen := cap).append x`: the deque always holds the
most recent `cap` elements of everything appended so far. -/
def dequeAppend (cap : ℕ) (l : List α) (x : α) : List α :=
  (l ++ [x]).drop ((l ++ [x]).length - cap)

/-- The most recent `cap` elements of a list (a suffix). -/
def lastN (cap : ℕ) (l : List α) : List α :=
  l.drop (l.length - cap)

/-- Embedding of the `Replay_Memory` class: a capacity together with the
deque contents, oldest element first. -/
structure Replay_Memory (σ τ ρ : Type) where
  max_size : ℕ
  buffer : List (Transition σ τ ρ)
  deriving DecidableEq, Repr

variable {σ τ ρ : Type}

/-- `Replay_Memory.__init__(max_size)`: empty deque with the given capacity. -/
def Replay_Memory.init (max_size : ℕ) : Replay_Memory σ τ ρ :=
  ⟨max_size, []⟩

/-- `Replay_Memory.push` (lines 67-71): build the experience tuple, wrapping
the reward as `np.array([reward])`, and append it to the deque. -/
def Replay_Memory.push (m : Replay_Memory σ τ ρ)
    (state : σ) (action : τ) (reward : ρ) (next_state : σ) (done : Bool) :
    Replay_Memory σ τ ρ :=
  { m with buffer := dequeAppend m.max_size m.buffer ⟨state, action, [reward], next_state, done⟩ }

/-- `Replay_Memory.__len__` (lines 103-105). -/
def Replay_Memory.len (m : Replay_Memory σ τ ρ) : ℕ :=
  m.buffer.length

/-- `Replay_Memory.sample(batch_size)` (lines 73-101).  `random.sample`
draws `batch_size` positions of the deque without replacement; the drawn
positions are the parameter `draw` (Python's `random` module is external to
the repository).  The loop then splits each drawn experience into the five
result lists, appending `not done` to the fifth. -/
def Replay_Memory.sample (m : Replay_Memory σ τ ρ)
    (draw : List (Fin m.buffer.length)) :
    List σ × List τ × List (List ρ) × List σ × List Bool :=
  let batch := draw.map (fun i => m.buffer.get i)
  (batch.map (·.state), batch.map (·.action), batch.map (·.reward),
    batch.map (·.next_state), batch.map (fun e => !e.done))

/-- Push a whole sequence of `(state, action, reward, next_state, done)`
tuples in order. -/
def Replay_Memory.pushMany (m : Replay_Memory σ τ ρ)
    (xs : List (σ × τ × ρ × σ × Bool)) : Replay_Memory σ τ ρ :=
  xs.foldl (fun acc q => acc.push q.1 q.2.1 q.2.2.1 q.2.2.2.1 q.2.2.2.2) m

/-- The tuple-to-`Transition` wrapping performed by `push`. -/
def wrapT (q : σ × τ × ρ × σ × Bool) : Transition σ τ ρ :=
  ⟨q.1, q.2.1, [q.2.2.1], q.2.2.2.1, q.2.2.2.2⟩

theorem lastN_nil (cap : ℕ) : lastN cap ([] : List α) = [] := by
  simp [lastN]

theorem dequeAppend_eq_lastN (cap : ℕ) (l : List α) (x : α) :
    dequeAppend cap l x = lastN cap (l ++ [x]) := rfl

theorem length_lastN (cap : ℕ) (l : List α) :
    (lastN cap l).length = min cap l.length := by
  simp only [lastN, List.length_drop]
  omega

theorem lastN_append_single (cap : ℕ) (l : List α) (x : α) :
    lastN cap (lastN cap l ++ [x]) = lastN cap (l ++ [x]) := by
  by_cases h0 : cap = 0
  · subst h0
    simp [lastN, List.drop_length]
  · rcases le_or_lt cap l.length with h | h
    · unfold lastN
      rw [List.length_append, List.length_drop, List.length_append]
      simp only [List.length_singleton]
      rw [show l.length - (l.length - cap) + 1 - cap = 1 by omega]
      rw [show l.length + 1 - cap = (l.length - cap) + 1 by omega]
      rw [List.drop_append_of_le_length (by rw [List.length_drop]; omega),
        List.drop_append_of_le_length (by omega), List.drop_drop]
    · have hz : l.length - cap = 0 := by omega
      simp [lastN, hz]

theorem foldl_dequeAppend (cap : ℕ) (xs : List α) :
    xs.foldl (dequeAppend cap) [] = lastN cap xs := by
  induction xs using List.reverseRecOn with
  | nil => simp [lastN]
  | append_singleton ys x ih =>
      rw [List.foldl_append, List.foldl_cons, List.foldl_nil, ih,
        dequeAppend_eq_lastN, lastN_append_single]

theorem pushMany_buffer (cap : ℕ) (xs : List (σ × τ × ρ × σ × Bool)) :
    ((Replay_Memory.init (σ := σ) (τ := τ) (ρ := ρ) cap).pushMany xs).buffer
      = lastN cap (xs.map wrapT) := by
  have hmax : ∀ (m : Replay_Memory σ τ ρ), m.max_size = cap →
      (m.pushMany xs).buffer = (xs.map wrapT).foldl (dequeAppend cap) m.buffer := by
    intro m hm
    induction xs generalizing m with
    | nil => simp [Replay_Memory.pushMany]
    | cons q qs ih =>
        simp only [Replay_Memory.pushMany, List.foldl_cons, List.map_cons]
        have := ih (m.push q.1 q.2.1 q.2.2.1 q.2.2.2.1 q.2.2.2.2) (by simp [Replay_Memory.push, hm])
        simp only [Replay_Memory.pushMany] at this
        rw [this]
        simp [Replay_Memory.push, hm, wrapT]
  rw [hmax (Replay_Memory.init cap) rfl]
  exact foldl_dequeAppend cap (xs.map wrapT)

/-! ### DDPGagent parameter bookkeeping (`main_classes.py`, lines 281-472)

Network parameter vectors, the two optimizer states, and the replay memory
are carried in one record.  The numeric content of one gradient step is
treated separately (expression-level model below); here the update applied
to the parameter/optimizer pair of each trainable network is an arbitrary
function argument, which suffices for the control-flow and soft-update
claims. -/

/-- The mutable state owned by `DDPGagent`: four parameter vectors, the two
optimizer states (only the online critic and the online actor have
optimizers, lines 339-341), the replay memory and the configuration. -/
structure DDPGagentState (σ τ ρ : Type) where
  critic : List ℚ
  target_critic : List ℚ
  actor : List ℚ
  target_actor : List ℚ
  critic_optimizer : List ℚ
  actor_optimizer : List ℚ
  memory : Replay_Memory σ τ ρ
  tau : ℚ
  gamma : ℚ
  replay_min : ℕ
  batch_size : ℕ
  deriving DecidableEq

/-- `DDPGagent.update_target_weights(tau=1)` (lines 358-366), embedded
exactly as written: each target parameter is overwritten with
`param * self.tau + target_param * (1.0 - tau)` — the online term is scaled
by the constructor field `self.tau` while the complementary factor uses the
method argument `tau`. -/
def DDPGagentState.update_target_weights (s : DDPGagentState σ τ ρ) (tau : ℚ) :
    DDPGagentState σ τ ρ :=
  { s with
    target_critic :=
      List.zipWith (fun target_param param => param * s.tau + target_param * (1 - tau))
        s.target_critic s.critic
    target_actor :=
      List.zipWith (fun target_param param => param * s.tau + target_param * (1 - tau))
        s.target_actor s.actor }

/-- `DDPGagent.__init__` (lines 283-341), restricted to parameter state: the
freshly drawn online weights and the framework-initialized target weights
are inputs (the random draws are external), then `update_target_weights()`
is called with its default argument `tau=1` (line 333). -/
def DDPGagentState.construct (critic0 actor0 target_critic0 target_actor0 : List ℚ)
    (critic_opt0 actor_opt0 : List ℚ) (replay_size : ℕ) (tau gamma : ℚ)
    (replay_min batch_size : ℕ) : DDPGagentState σ τ ρ :=
  DDPGagentState.update_target_weights
    { critic := critic0
      target_critic := target_critic0
      actor := actor0
      target_actor := target_actor0
      critic_optimizer := critic_opt0
      actor_optimizer := actor_opt0
      memory := Replay_Memory.init replay_size
      tau := tau
      gamma := gamma
      replay_min := replay_min
      batch_size := batch_size } 1

/-- `DDPGagent.update_replay_memory` / `store` (lines 352-354). -/
def DDPGagentState.update_replay_memory (s : DDPGagentState σ τ ρ)
    (state : σ) (action : τ) (reward : ρ) (next_state : σ) (done : Bool) :
    DDPGagentState σ τ ρ :=
  { s with memory := s.memory.push state action reward next_state done }

/-- `DDPGagent.train` (lines 382-452), at the level of parameter and
optimizer state.  The guard at line 384 returns immediately while the
buffer holds fewer than `replay_min` transitions.  Past the guard, one
gradient step is applied to the online critic and one to the online actor
(each step is a function of the network's parameter/optimizer pair, its
numeric content being modelled separately), and finally
`update_target_weights(self.tau)` is called (line 452).  Sampling does not
modify the deque. -/
def DDPGagentState.train
    (critic_step actor_step : List ℚ × List ℚ → List ℚ × List ℚ)
    (s : DDPGagentState σ τ ρ) : DDPGagentState σ τ ρ :=
  if s.memory.len < s.replay_min then s
  else
    let c := critic_step (s.critic, s.critic_optimizer)
    let a := actor_step (s.actor, s.actor_optimizer)
    DDPGagentState.update_target_weights
      { s with
        critic := c.1
        critic_optimizer := c.2
        actor := a.1
        actor_optimizer := a.2 } s.tau

/-! ### Agent-level sampling guard (`train`, lines 382-388)

A run of external driver calls, recording the buffer size at every point
where `train` reaches `self.memory.sample(self.batch_size)` (line 388). -/

/-- One driver call on the agent: either a `store` of a transition or a
`train()` call. -/
inductive AgentOp (σ τ ρ : Type) where
  | store (state : σ) (action : τ) (reward : ρ) (next_state : σ) (done : Bool)
  | trainCall
  deriving DecidableEq

/-- Replay a sequence of driver calls starting from a fresh agent.  The
result is the final memory together with the list of buffer lengths at
which `train` went past the warm-up guard and invoked
`sample(batch_size)`. -/
def DDPGagent.runOps (replay_min batch_size replay_size : ℕ)
    (ops : List (AgentOp σ τ ρ)) : Replay_Memory σ τ ρ × List ℕ :=
  ops.foldl
    (fun acc op =>
      match op with
      | .store st a r ns d => (acc.1.push st a r ns d, acc.2)
      | .trainCall =>
          if acc.1.len < replay_min then acc
          else (acc.1, acc.2 ++ [acc.1.len]))
    (Replay_Memory.init replay_size, [])

/-- Every recorded `sample` invocation happened with at least `replay_min`
transitions in the buffer (the guard of line 384). -/
theorem runOps_log_ge_replay_min (replay_min batch_size replay_size : ℕ)
    (ops : List (AgentOp σ τ ρ)) :
    ∀ n ∈ (DDPGagent.runOps replay_min batch_size replay_size ops).2,
      replay_min ≤ n := by
  suffices h : ∀ (acc : Replay_Memory σ τ ρ × List ℕ),
      (∀ n ∈ acc.2, replay_min ≤ n) →
      ∀ n ∈ (ops.foldl
        (fun acc op =>
          match op with
          | AgentOp.store st a r ns d => (acc.1.push st a r ns d, acc.2)
          | AgentOp.trainCall =>
              if acc.1.len < replay_min then acc
              else (acc.1, acc.2 ++ [acc.1.len])) acc).2, replay_min ≤ n by
    exact h (Replay_Memory.init replay_size, []) (by simp)
  induction ops with
  | nil => intro acc hacc; simpa using hacc
  | cons op rest ih =>
      intro acc hacc
      cases op with
      | store st a r ns d =>
          exact ih (acc.1.push st a r ns d, acc.2) hacc
      | trainCall =>
          by_cases hg : acc.1.len < replay_min
          · simpa [hg] using ih acc hacc
          · refine ?_
            have hacc' : ∀ n ∈ (acc.1, acc.2 ++ [acc.1.len]).2, replay_min ≤ n := by
              intro n hn
              rcases List.mem_append.mp hn with h1 | h1
              · exact hacc n h1
              · rcases List.mem_singleton.mp h1 with rfl
                omega
            simpa [hg] using ih (acc.1, acc.2 ++ [acc.1.len]) hacc'

/-! ### Checkpoint filenames (`Critic`/`Actor` `__init__` and
`save_checkpoint`/`load_checkpoint`, `DDPGagent.save_model`/`load_model`) -/

/-- `os.path.join(chkpt, name)`. -/
def os_path_join (dir name : String) : String := dir ++ "/" ++ name

/-- The checkpoint-relevant part of a `Critic` or `Actor` instance: the
`filename` attribute is set only when a `name` was supplied to `__init__`
(lines 124-130 and 212-218); otherwise the attribute does not exist. -/
structure CheckpointNet where
  filename : Option String
  deriving DecidableEq, Repr

/-- Network construction: `filename = os.path.join(chkpt, name + '_ddpg')`
when `name is not None`, no `filename` attribute otherwise. -/
def CheckpointNet.build (name : Option String) (chkpt : String) : CheckpointNet :=
  ⟨name.map (fun n => os_path_join chkpt (n ++ "_ddpg"))⟩

/-- `save_checkpoint` (lines 185-188 and 269-272): `torch.save(state_dict,
self.filename)`.  Reading the missing attribute raises `AttributeError`;
success returns the path written. -/
def CheckpointNet.save_checkpoint (net : CheckpointNet) : Except String String :=
  match net.filename with
  | none => Except.error "AttributeError"
  | some f => Except.ok f

/-- `load_checkpoint` (lines 190-192 and 274-276): same missing-attribute
behaviour. -/
def CheckpointNet.load_checkpoint (net : CheckpointNet) : Except String String :=
  match net.filename with
  | none => Except.error "AttributeError"
  | some f => Except.ok f

/-- The four networks as built by `DDPGagent.__init__` (lines 309-327):
target names are `name + "_target"` when a name was given, `None`
otherwise. -/
structure AgentNets where
  actor : CheckpointNet
  critic : CheckpointNet
  target_actor : CheckpointNet
  target_critic : CheckpointNet
  deriving DecidableEq, Repr

/-- Filename wiring of `DDPGagent.__init__` for the four networks. -/
def DDPGagent.buildNets (name_critic name_actor : Option String)
    (directory : String) : AgentNets :=
  { actor := CheckpointNet.build name_actor directory
    critic := CheckpointNet.build name_critic directory
    target_actor := CheckpointNet.build (name_actor.map (· ++ "_target")) directory
    target_critic := CheckpointNet.build (name_critic.map (· ++ "_target")) directory }

/-- `DDPGagent.save_model` (lines 454-462): saves actor, critic, target
actor, target critic in that order; the first failure propagates and
nothing later runs. -/
def DDPGagent.save_model (a : AgentNets) : Except String (List String) := do
  let f1 ← a.actor.save_checkpoint
  let f2 ← a.critic.save_checkpoint
  let f3 ← a.target_actor.save_checkpoint
  let f4 ← a.target_critic.save_checkpoint
  pure [f1, f2, f3, f4]

/-- `DDPGagent.load_model` (lines 464-472): same order. -/
def DDPGagent.load_model (a : AgentNets) : Except String (List String) := do
  let f1 ← a.actor.load_checkpoint
  let f2 ← a.critic.load_checkpoint
  let f3 ← a.target_actor.load_checkpoint
  let f4 ← a.target_critic.load_checkpoint
  pure [f1, f2, f3, f4]

/-! ### Weight initialization (`Critic.init_weights` lines 164-182,
`Actor.init_weights` lines 248-266)

`nn.Linear(in_features, out_features)` stores its weight as an
`out_features × in_features` matrix, so `weight.data.size()[0]` is the
layer's *output* width.  `init_weights` draws the listed tensors uniformly
from `[-f, f]` where `f = 1/np.sqrt(weight.data.size()[0])` for `fc1` and
`fc2`, and `f = 0.003` for the head (`q` resp. `mu`).  The uniform draws
themselves are external randomness; the half-widths are modelled. -/

/-- Shape of an `nn.Linear` weight: `(out_features, in_features)`. -/
structure LinearShape where
  out_features : ℕ
  in_features : ℕ
  deriving DecidableEq, Repr

/-- `nn.Linear(in_features, out_features)`. -/
def nn_Linear (in_features out_features : ℕ) : LinearShape :=
  ⟨out_features, in_features⟩

/-- `layer.weight.data.size()[0]`. -/
def LinearShape.weight_size0 (l : LinearShape) : ℕ := l.out_features

/-- The linear layers of `Critic.__init__` (lines 132-142). -/
structure CriticShapes where
  fc1 : LinearShape
  fc2 : LinearShape
  action_value : LinearShape
  q : LinearShape
  deriving DecidableEq, Repr

def Critic.shapes (input_dim fc1_dim fc2_dim n_actions : ℕ) : CriticShapes :=
  { fc1 := nn_Linear input_dim fc1_dim
    fc2 := nn_Linear fc1_dim fc2_dim
    action_value := nn_Linear n_actions fc2_dim
    q := nn_Linear fc2_dim 1 }

/-- The linear layers of `Actor.__init__` (lines 220-228). -/
structure ActorShapes where
  fc1 : LinearShape
  fc2 : LinearShape
  mu : LinearShape
  deriving DecidableEq, Repr

def Actor.shapes (input_dim fc1_dim fc2_dim n_actions : ℕ) : ActorShapes :=
  { fc1 := nn_Linear input_dim fc1_dim
    fc2 := nn_Linear fc1_dim fc2_dim
    mu := nn_Linear fc2_dim n_actions }

/-- The tensors assigned by `Critic.init_weights` (lines 172-182). -/
inductive CriticTensor where
  | fc1_weight | fc1_bias | fc2_weight | fc2_bias | q_weight | q_bias
  deriving DecidableEq, Repr

/-- Half-width of the uniform interval used by `Critic.init_weights`:
`f1 = 1/np.sqrt(fc1.weight.data.size()[0])`, `f2` likewise for `fc2`,
`f3 = 0.003` for the `q` head; biases share their layer's half-width. -/
noncomputable def Critic.init_range (c : CriticShapes) : CriticTensor → ℝ
  | .fc1_weight => 1 / Real.sqrt c.fc1.weight_size0
  | .fc1_bias => 1 / Real.sqrt c.fc1.weight_size0
  | .fc2_weight => 1 / Real.sqrt c.fc2.weight_size0
  | .fc2_bias => 1 / Real.sqrt c.fc2.weight_size0
  | .q_weight => 3 / 1000
  | .q_bias => 3 / 1000

/-- The tensors assigned by `Actor.init_weights` (lines 256-266). -/
inductive ActorTensor where
  | fc1_weight | fc1_bias | fc2_weight | fc2_bias | mu_weight | mu_bias
  deriving DecidableEq, Repr

/-- Half-widths of `Actor.init_weights`, same scheme with the `mu` head. -/
noncomputable def Actor.init_range (a : ActorShapes) : ActorTensor → ℝ
  | .fc1_weight => 1 / Real.sqrt a.fc1.weight_size0
  | .fc1_bias => 1 / Real.sqrt a.fc1.weight_size0
  | .fc2_weight => 1 / Real.sqrt a.fc2.weight_size0
  | .fc2_bias => 1 / Real.sqrt a.fc2.weight_size0
  | .mu_weight => 3 / 1000
  | .mu_bias => 3 / 1000

/-! ### The statement sequence of `train()` past the guard
(lines 388-452), as an event trace. -/

inductive NetTag where
  | criticNet | actorNet | target_criticNet | target_actorNet
  deriving DecidableEq, Repr

/-- The agent owns exactly two optimizers (lines 339-341): one over
`critic.parameters()`, one over `actor.parameters()`.  The target networks
have none. -/
inductive OptTag where
  | critic_opt | actor_opt
  deriving DecidableEq, Repr

inductive LossTag where
  | critic_loss | actor_loss
  deriving DecidableEq, Repr

inductive TrainEvent where
  | sample_batch
  | set_eval (n : NetTag)
  | set_train (n : NetTag)
  | forward_pass (n : NetTag)
  | compute_targets
  | zero_grad (o : OptTag)
  | backward_pass (l : LossTag)
  | opt_step (o : OptTag)
  | soft_update
  deriving DecidableEq, Repr

/-- The statements of `train()` past the warm-up guard, in source order
(lines 388-452). -/
def DDPGagent.train_events : List TrainEvent :=
  [ .sample_batch,
    .set_eval .actorNet, .set_eval .criticNet,
    .set_eval .target_actorNet, .set_eval .target_criticNet,
    .forward_pass .target_actorNet, .forward_pass .target_criticNet,
    .compute_targets,
    .set_train .criticNet, .zero_grad .critic_opt, .forward_pass .criticNet,
    .backward_pass .critic_loss, .opt_step .critic_opt,
    .set_eval .criticNet, .zero_grad .actor_opt, .set_train .actorNet,
    .forward_pass .actorNet, .forward_pass .criticNet,
    .backward_pass .actor_loss, .opt_step .actor_opt,
    .soft_update ]

def TrainEvent.isOptStep : TrainEvent → Bool
  | .opt_step _ => true
  | _ => false

/-! ### Claim theorems (container, bookkeeping and checkpoint claims) -/

/-- Claim C1: the claim states that `update_target_weights(t)` sets each
target parameter to `t * online + (1 - t) * target`, so that `t = 1`
(as invoked by `__init__`) leaves a hard copy and `t = 0` leaves the target
unchanged.  The code instead computes
`param * self.tau + target_param * (1 - t)` (line 362), using the
constructor field `self.tau` for the online term.  Evaluated at
`self.tau = 0.001` (the default) with online parameter `1` and target
parameter `5`: the call with `t = 1` yields `0.001`, not `1`; the call with
`t = 0` yields `5.001`, not the unchanged `5`; and the agent constructor
itself leaves the target at `0.001` instead of a hard copy of `1`. -/
theorem C1_update_target_weights_eval :
    let s : DDPGagentState ℕ ℕ ℕ :=
      { critic := [1], target_critic := [5], actor := [0], target_actor := [0]
        critic_optimizer := [], actor_optimizer := []
        memory := Replay_Memory.init 10
        tau := 1/1000, gamma := 99/100, replay_min := 100, batch_size := 64 }
    (s.update_target_weights 1).target_critic = [1/1000]
    ∧ (s.update_target_weights 1).target_critic ≠ [(1 : ℚ)]
    ∧ (s.update_target_weights 0).target_critic = [5001/1000]
    ∧ (s.update_target_weights 0).target_critic ≠ [(5 : ℚ)]
    ∧ (DDPGagentState.construct (σ := ℕ) (τ := ℕ) (ρ := ℕ)
          [1] [0] [5] [0] [] [] 10 (1/1000) (99/100) 100 64).target_critic = [1/1000] := by
  refine ⟨?_, ?_, ?_, ?_, ?_⟩ <;>
    simp [DDPGagentState.update_target_weights, DDPGagentState.construct] <;> norm_num

/-- Claim C4, as stated: for any `replay_min` and `batch_size`, whenever a
run of `store`/`train` calls reaches `sample(batch_size)`, the buffer holds
at least `batch_size` transitions.  Counterexample: with `replay_min = 1`,
`batch_size = 2`, one stored transition and one `train()` call, the guard
`len(memory) < replay_min` passes and `sample(2)` is invoked with only one
transition in the buffer. -/
theorem C4_sample_precondition_cex :
    (DDPGagent.runOps (σ := ℕ) (τ := ℕ) (ρ := ℕ) 1 2 10
        [AgentOp.store 0 0 0 0 false, AgentOp.trainCall]).2 = [1]
    ∧ ¬ (2 ≤ 1) := by
  constructor
  · rfl
  · decide

/-- Claim C4, amended: provided the configuration satisfies
`batch_size ≤ replay_min` (as the defaults `64 ≤ 100` do), every invocation
of `sample(batch_size)` by `train()` happens with at least `batch_size`
transitions in the buffer, over every sequence of `store` and `train`
calls. -/
theorem C4_sample_precondition (replay_min batch_size replay_size : ℕ)
    (h : batch_size ≤ replay_min) (ops : List (AgentOp σ τ ρ)) :
    ∀ n ∈ (DDPGagent.runOps replay_min batch_size replay_size ops).2,
      batch_size ≤ n :=
  fun n hn =>
    le_trans h (runOps_log_ge_replay_min replay_min batch_size replay_size ops n hn)

/-- Driver sequence used to witness C4: two stores then a train. -/
def opsC4 : List (AgentOp ℕ ℕ ℕ) :=
  [AgentOp.store 0 0 0 0 false, AgentOp.store 1 1 1 1 true, AgentOp.trainCall]

theorem C4_sample_precondition_witness :
    (2 ≤ 2 ∧ (2 : ℕ) ∈ (DDPGagent.runOps 2 2 10 opsC4).2) :=
  ⟨C4_sample_precondition 2 2 10 (by decide) opsC4 2 (by decide), by decide⟩

/-- Claim C6: over every push sequence the buffer size never exceeds the
capacity; a sequence at least as long as the capacity leaves exactly the
most recently pushed `capacity` transitions, in push order; and a push onto
a full buffer evicts exactly the oldest entry. -/
theorem C6_buffer_fifo (cap : ℕ) (xs : List (σ × τ × ρ × σ × Bool)) :
    ((Replay_Memory.init (σ := σ) (τ := τ) (ρ := ρ) cap).pushMany xs).buffer.length ≤ cap
    ∧ ((Replay_Memory.init (σ := σ) (τ := τ) (ρ := ρ) cap).pushMany xs).buffer
        = (xs.map wrapT).drop (xs.length - cap)
    ∧ (cap ≤ xs.length →
        ((Replay_Memory.init (σ := σ) (τ := τ) (ρ := ρ) cap).pushMany xs).buffer.length = cap)
    ∧ (∀ (m : Replay_Memory σ τ ρ) st a r ns d, m.max_size = cap →
        m.buffer.length = cap → 1 ≤ cap →
        (m.push st a r ns d).buffer = m.buffer.tail ++ [wrapT (st, a, r, ns, d)]) := by
  have hbuf := pushMany_buffer (σ := σ) (τ := τ) (ρ := ρ) cap xs
  have hlen : ((Replay_Memory.init (σ := σ) (τ := τ) (ρ := ρ) cap).pushMany xs).buffer.length
      = min cap xs.length := by
    rw [hbuf, length_lastN, List.length_map]
  refine ⟨by omega, ?_, by omega, ?_⟩
  · rw [hbuf]; unfold lastN; rw [List.length_map]
  · intro m st a r ns d hmax hfull hpos
    simp only [Replay_Memory.push, dequeAppend, hmax, List.length_append,
      List.length_singleton, hfull]
    rw [show cap + 1 - cap = 1 by omega,
      List.drop_append_of_le_length (by omega), List.drop_one, wrapT]

/-- Concrete push sequence used to witness C6. -/
def xsC6 : List (ℕ × ℕ × ℕ × ℕ × Bool) :=
  [(1, 1, 1, 1, false), (2, 2, 2, 2, false), (3, 3, 3, 3, true)]

theorem C6_buffer_fifo_witness :
    ((Replay_Memory.init (σ := ℕ) (τ := ℕ) (ρ := ℕ) 2).pushMany xsC6).buffer.length = 2 :=
  (C6_buffer_fifo 2 xsC6).2.2.1 (by decide)

/-- Claim C3, as stated: `init_weights` draws the hidden layers uniformly
from `[-1/sqrt(fan_in), 1/sqrt(fan_in)]` where `fan_in` is the number of
inputs to the layer.  Counterexample: for a critic with `input_dim = 4` and
`fc1_dim = 9`, the fan-in of `fc1` is `4`, but the code computes
`f1 = 1/np.sqrt(fc1.weight.data.size()[0]) = 1/sqrt(9) = 1/3`, which is not
`1/sqrt(4) = 1/2`. -/
theorem C3_fan_in_cex :
    Critic.init_range (Critic.shapes 4 9 9 1) CriticTensor.fc1_weight
      ≠ 1 / Real.sqrt ((Critic.shapes 4 9 9 1).fc1.in_features) := by
  have h9 : Real.sqrt 9 = 3 := by
    rw [show (9 : ℝ) = 3 ^ 2 by norm_num, Real.sqrt_sq (by norm_num : (0:ℝ) ≤ 3)]
  have h4 : Real.sqrt 4 = 2 := by
    rw [show (4 : ℝ) = 2 ^ 2 by norm_num, Real.sqrt_sq (by norm_num : (0:ℝ) ≤ 2)]
  simp only [Critic.init_range, Critic.shapes, nn_Linear, LinearShape.weight_size0]
  norm_num [h9, h4]

/-- Claim C3, amended: the uniform half-width for `fc1`/`fc2` weights and
biases is `1/sqrt(weight.data.size()[0])`, i.e. `1/sqrt(out_features)` —
the layer's output width, not its fan-in — and the output head (`q` for the
critic, `mu` for the actor) uses the fixed half-width `0.003` for weights
and biases, in both networks.  (`action_value` and the normalization layers
are not touched by `init_weights`.) -/
theorem C3_init_ranges (input_dim fc1_dim fc2_dim n_actions : ℕ) :
    (Critic.shapes input_dim fc1_dim fc2_dim n_actions).fc1.in_features = input_dim
    ∧ (Critic.shapes input_dim fc1_dim fc2_dim n_actions).fc1.weight_size0 = fc1_dim
    ∧ (Critic.shapes input_dim fc1_dim fc2_dim n_actions).fc2.weight_size0 = fc2_dim
    ∧ Critic.init_range (Critic.shapes input_dim fc1_dim fc2_dim n_actions) .fc1_weight
        = 1 / Real.sqrt fc1_dim
    ∧ Critic.init_range (Critic.shapes input_dim fc1_dim fc2_dim n_actions) .fc1_bias
        = 1 / Real.sqrt fc1_dim
    ∧ Critic.init_range (Critic.shapes input_dim fc1_dim fc2_dim n_actions) .fc2_weight
        = 1 / Real.sqrt fc2_dim
    ∧ Critic.init_range (Critic.shapes input_dim fc1_dim fc2_dim n_actions) .fc2_bias
        = 1 / Real.sqrt fc2_dim
    ∧ Critic.init_range (Critic.shapes input_dim fc1_dim fc2_dim n_actions) .q_weight
        = 3 / 1000
    ∧ Critic.init_range (Critic.shapes input_dim fc1_dim fc2_dim n_actions) .q_bias
        = 3 / 1000
    ∧ (Actor.shapes input_dim fc1_dim fc2_dim n_actions).fc1.weight_size0 = fc1_dim
    ∧ Actor.init_range (Actor.shapes input_dim fc1_dim fc2_dim n_actions) .fc1_weight
        = 1 / Real.sqrt fc1_dim
    ∧ Actor.init_range (Actor.shapes input_dim fc1_dim fc2_dim n_actions) .fc2_weight
        = 1 / Real.sqrt fc2_dim
    ∧ Actor.init_range (Actor.shapes input_dim fc1_dim fc2_dim n_actions) .mu_weight
        = 3 / 1000
    ∧ Actor.init_range (Actor.shapes input_dim fc1_dim fc2_dim n_actions) .mu_bias
        = 3 / 1000 := by
  simp [Critic.init_range, Actor.init_range, Critic.shapes, Actor.shapes,
    nn_Linear, LinearShape.weight_size0]

/-- Claim C7: for a draw of `k` pairwise-distinct valid positions (the
without-replacement draw supplied by `random.sample`; its uniform
distribution is the contract of the external `random` module),
`sample` returns five sequences of length `k`; at each index the five
entries all come from the transition at the drawn position (alignment); the
fifth sequence is the negated `done` flag of that transition; and distinct
indices read distinct buffer positions. -/
theorem C7_sample_aligned (m : Replay_Memory σ τ ρ) (k : ℕ)
    (draw : List (Fin m.buffer.length)) (hk : draw.length = k) (hnd : draw.Nodup) :
    ((m.sample draw).1.length = k
      ∧ (m.sample draw).2.1.length = k
      ∧ (m.sample draw).2.2.1.length = k
      ∧ (m.sample draw).2.2.2.1.length = k
      ∧ (m.sample draw).2.2.2.2.length = k)
    ∧ (∀ i, i < k → ∃ j : Fin m.buffer.length,
        draw.get? i = some j
        ∧ (m.sample draw).1.get? i = some (m.buffer.get j).state
        ∧ (m.sample draw).2.1.get? i = some (m.buffer.get j).action
        ∧ (m.sample draw).2.2.1.get? i = some (m.buffer.get j).reward
        ∧ (m.sample draw).2.2.2.1.get? i = some (m.buffer.get j).next_state
        ∧ (m.sample draw).2.2.2.2.get? i = some (!(m.buffer.get j).done))
    ∧ (∀ i1 i2 : ℕ, i1 < k → i2 < k → i1 ≠ i2 → draw.get? i1 ≠ draw.get? i2) := by
  subst hk
  refine ⟨by simp [Replay_Memory.sample], ?_, ?_⟩
  · intro i hi
    refine ⟨draw.get ⟨i, hi⟩, List.get?_eq_get hi, ?_, ?_, ?_, ?_, ?_⟩ <;>
      simp [Replay_Memory.sample, List.getElem?_map, List.getElem?_eq_getElem hi]
  · intro i1 i2 h1 h2 hne
    rw [List.get?_eq_get h1, List.get?_eq_get h2]
    intro hsome
    have hget : draw.get ⟨i1, h1⟩ = draw.get ⟨i2, h2⟩ := by
      exact Option.some.inj hsome
    have := (List.nodup_iff_injective_get.mp hnd) hget
    exact hne (congrArg Fin.val this)

/-- Concrete memory used to witness C7. -/
def memC7 : Replay_Memory ℕ ℕ ℕ :=
  ⟨5, [⟨1, 1, [1], 1, false⟩, ⟨2, 2, [2], 2, true⟩, ⟨3, 3, [3], 3, false⟩]⟩

/-- Concrete two-element draw used to witness C7. -/
def drawC7 : List (Fin memC7.buffer.length) :=
  [⟨0, by decide⟩, ⟨2, by decide⟩]

theorem C7_sample_aligned_witness :
    ((memC7.sample drawC7).1.length = 2
      ∧ (memC7.sample drawC7).2.1.length = 2
      ∧ (memC7.sample drawC7).2.2.1.length = 2
      ∧ (memC7.sample drawC7).2.2.2.1.length = 2
      ∧ (memC7.sample drawC7).2.2.2.2.length = 2) :=
  (C7_sample_aligned memC7 2 drawC7 (by decide) (by decide)).1

/-- Claim C8: a `train()` call with the buffer below `replay_min` is a
no-op: the whole agent state — all four parameter vectors, both optimizer
states, and the replay memory — is returned unchanged, whatever gradient
steps would otherwise be applied. -/
theorem C8_train_noop (critic_step actor_step : List ℚ × List ℚ → List ℚ × List ℚ)
    (s : DDPGagentState σ τ ρ) (h : s.memory.len < s.replay_min) :
    s.train critic_step actor_step = s := by
  simp [DDPGagentState.train, h]

/-- Concrete agent state used to witness C8: empty buffer, `replay_min = 100`. -/
def sC8 : DDPGagentState ℕ ℕ ℕ :=
  { critic := [1, 2], target_critic := [3, 4], actor := [5], target_actor := [6]
    critic_optimizer := [0], actor_optimizer := [0]
    memory := Replay_Memory.init 1000
    tau := 1/1000, gamma := 99/100, replay_min := 100, batch_size := 64 }

theorem C8_train_noop_witness :
    sC8.memory.len < sC8.replay_min ∧ sC8.train id id = sC8 :=
  ⟨by decide, C8_train_noop id id sC8 (by decide)⟩

/-- Claim C10: an agent constructed with the default `name_critic = None`
and `name_actor = None` builds all four networks without a `filename`
attribute, so `save_model()` and `load_model()` fail with the
missing-attribute error at the first network (the actor) and persist or
restore nothing. -/
theorem C10_default_names_save_load_error (directory : String) :
    (DDPGagent.buildNets none none directory).actor.filename = none
    ∧ (DDPGagent.buildNets none none directory).critic.filename = none
    ∧ (DDPGagent.buildNets none none directory).target_actor.filename = none
    ∧ (DDPGagent.buildNets none none directory).target_critic.filename = none
    ∧ DDPGagent.save_model (DDPGagent.buildNets none none directory)
        = Except.error "AttributeError"
    ∧ DDPGagent.load_model (DDPGagent.buildNets none none directory)
        = Except.error "AttributeError" := by
  refine ⟨rfl, rfl, rfl, rfl, rfl, rfl⟩

/-! ### Numeric model: torch expressions with reverse-mode gradients

The forward computations of `Critic.forward`/`Actor.forward` and the
target/loss computation of `train()` build a computation graph over the
network parameters; `backward()` differentiates through every node of that
graph.  We embed the graph as an expression tree over a variable type
naming every parameter of the four networks, with `torch` semantics for
evaluation and for the gradient the autodiff engine computes.  `stopGrad`
is `detach()` / `no_grad`: it evaluates transparently but blocks the
gradient.  Batch data (states, actions, rewards, masks) enter as constants,
exactly as tensors built from numpy arrays with `requires_grad=False`. -/

inductive PrimOp where
  | reluOp | sqrtOp | tanhOp
  deriving DecidableEq, Repr

noncomputable def evalPrim : PrimOp → ℝ → ℝ
  | .reluOp, x => max x 0
  | .sqrtOp, x => Real.sqrt x
  | .tanhOp, x => Real.tanh x

/-- The derivative attached to each primitive by the autodiff engine
(`relu` has subgradient `0` at `0`, as in torch). -/
noncomputable def evalPrimDeriv : PrimOp → ℝ → ℝ
  | .reluOp, x => if 0 < x then 1 else 0
  | .sqrtOp, x => 1 / (2 * Real.sqrt x)
  | .tanhOp, x => 1 - Real.tanh x ^ 2

inductive Expr (V : Type) where
  | var : V → Expr V
  | const : ℝ → Expr V
  | add : Expr V → Expr V → Expr V
  | sub : Expr V → Expr V → Expr V
  | mul : Expr V → Expr V → Expr V
  | div : Expr V → Expr V → Expr V
  | prim : PrimOp → Expr V → Expr V
  | stopGrad : Expr V → Expr V

noncomputable def Expr.eval (env : V → ℝ) : Expr V → ℝ
  | .var v => env v
  | .const c => c
  | .add a b => a.eval env + b.eval env
  | .sub a b => a.eval env - b.eval env
  | .mul a b => a.eval env * b.eval env
  | .div a b => a.eval env / b.eval env
  | .prim p a => evalPrim p (a.eval env)
  | .stopGrad a => a.eval env

/-- The gradient of the expression with respect to variable `v` at the
parameter assignment `env`, exactly as reverse-mode autodiff computes it:
every node is differentiated, `stopGrad` (detach) contributes `0`. -/
noncomputable def Expr.adGrad [DecidableEq V] (env : V → ℝ) (v : V) : Expr V → ℝ
  | .var w => if w = v then 1 else 0
  | .const _ => 0
  | .add a b => a.adGrad env v + b.adGrad env v
  | .sub a b => a.adGrad env v - b.adGrad env v
  | .mul a b => a.adGrad env v * b.eval env + a.eval env * b.adGrad env v
  | .div a b =>
      (a.adGrad env v * b.eval env - a.eval env * b.adGrad env v) / (b.eval env ^ 2)
  | .prim p a => evalPrimDeriv p (a.eval env) * a.adGrad env v
  | .stopGrad _ => 0

/-- All variables occurring in the expression satisfy `P`. -/
def Expr.UsesOnly (P : V → Prop) : Expr V → Prop
  | .var w => P w
  | .const _ => True
  | .add a b => a.UsesOnly P ∧ b.UsesOnly P
  | .sub a b => a.UsesOnly P ∧ b.UsesOnly P
  | .mul a b => a.UsesOnly P ∧ b.UsesOnly P
  | .div a b => a.UsesOnly P ∧ b.UsesOnly P
  | .prim _ a => a.UsesOnly P
  | .stopGrad a => a.UsesOnly P

/-- An expression not mentioning `v` has autodiff gradient `0` in `v`. -/
theorem Expr.adGrad_eq_zero [DecidableEq V] {P : V → Prop} (env : V → ℝ) (v : V)
    (hv : ¬ P v) : ∀ e : Expr V, e.UsesOnly P → e.adGrad env v = 0 := by
  intro e
  induction e with
  | var w =>
      intro h
      simp only [Expr.adGrad]
      rw [if_neg]
      rintro rfl
      exact hv h
  | const c => intro _; simp [Expr.adGrad]
  | add a b iha ihb => intro h; simp [Expr.adGrad, iha h.1, ihb h.2]
  | sub a b iha ihb => intro h; simp [Expr.adGrad, iha h.1, ihb h.2]
  | mul a b iha ihb => intro h; simp [Expr.adGrad, iha h.1, ihb h.2]
  | div a b iha ihb => intro h; simp [Expr.adGrad, iha h.1, ihb h.2]
  | prim p a iha => intro h; simp [Expr.adGrad, iha h]
  | stopGrad a _ => intro _; simp [Expr.adGrad]

/-! ### The network parameters as variables -/

/-- The parameters of one `Critic` instance (lines 132-142): two state
linear layers, two `LayerNorm`s, the action projection, and the `q` head.
`fc1w j i` is row `j`, column `i` of `fc1.weight`. -/
inductive CriticP where
  | fc1w (j i : ℕ) | fc1b (j : ℕ) | bn1w (i : ℕ) | bn1b (i : ℕ)
  | fc2w (j i : ℕ) | fc2b (j : ℕ) | bn2w (i : ℕ) | bn2b (i : ℕ)
  | avw (j i : ℕ) | avb (j : ℕ) | qw (j i : ℕ) | qb (j : ℕ)
  deriving DecidableEq, Repr

/-- The parameters of one `Actor` instance (lines 220-228). -/
inductive ActorP where
  | fc1w (j i : ℕ) | fc1b (j : ℕ) | bn1w (i : ℕ) | bn1b (i : ℕ)
  | fc2w (j i : ℕ) | fc2b (j : ℕ) | bn2w (i : ℕ) | bn2b (i : ℕ)
  | muw (j i : ℕ) | mub (j : ℕ)
  deriving DecidableEq, Repr

/-- Online or target copy: the four networks own disjoint parameters. -/
inductive NetSide where
  | online | targetSide
  deriving DecidableEq, Repr

/-- Every parameter of the agent's four networks. -/
inductive Var where
  | criticV (s : NetSide) (p : CriticP)
  | actorV (s : NetSide) (p : ActorP)
  deriving DecidableEq, Repr

def Var.side : Var → NetSide
  | .criticV s _ => s
  | .actorV s _ => s

/-- Variables belonging to the networks of the given side. -/
def SideOnly (s : NetSide) : Var → Prop := fun v => v.side = s

/-- The shared size configuration `(input_dim, layer1_size, layer2_size,
n_actions)` with which `DDPGagent.__init__` builds all four networks. -/
structure NetDims where
  input_dim : ℕ
  fc1_dim : ℕ
  fc2_dim : ℕ
  n_actions : ℕ
  deriving DecidableEq, Repr

/-! ### Layer builders -/

def sumE : List (Expr V) → Expr V
  | [] => Expr.const 0
  | e :: es => Expr.add e (sumE es)

/-- `F.relu`, elementwise. -/
def reluEl (xs : List (Expr V)) : List (Expr V) :=
  xs.map (Expr.prim .reluOp)

/-- `nn.Linear`: output `j` is `Σ_i w[j,i] * x[i] + b[j]`. -/
def linearE (wv : ℕ → ℕ → V) (bv : ℕ → V) (in_features out_features : ℕ)
    (x : List (Expr V)) : List (Expr V) :=
  (List.range out_features).map (fun j =>
    Expr.add
      (sumE ((List.range in_features).map (fun i =>
        Expr.mul (Expr.var (wv j i)) (x.getD i (Expr.const 0)))))
      (Expr.var (bv j)))

/-- `nn.LayerNorm(dim)` with its default `eps = 1e-5` and affine
parameters: `γ * (x - mean(x)) / sqrt(var(x) + eps) + β`, with the biased
variance over the feature dimension. -/
noncomputable def layerNormE (gv bv : ℕ → V) (dim : ℕ) (x : List (Expr V)) : List (Expr V) :=
  let mean := Expr.div (sumE x) (Expr.const x.length)
  let dev := x.map (fun xi => Expr.sub xi mean)
  let biasedVar := Expr.div (sumE (dev.map (fun dd => Expr.mul dd dd))) (Expr.const x.length)
  let denom := Expr.prim .sqrtOp (Expr.add biasedVar (Expr.const (1 / 100000)))
  (List.range dim).map (fun i =>
    Expr.add
      (Expr.mul (Expr.var (gv i)) (Expr.div (dev.getD i (Expr.const 0)) denom))
      (Expr.var (bv i)))

/-- `Critic.forward` (lines 144-162): state branch
`fc1 → bn1 → relu → fc2 → bn2`, action branch `relu(action_value(action))`,
`relu` of the elementwise sum, then the `q` head. -/
noncomputable def criticE (s : NetSide) (d : NetDims) (state action : List (Expr Var)) :
    List (Expr Var) :=
  let sv1 := linearE (fun j i => .criticV s (.fc1w j i)) (fun j => .criticV s (.fc1b j))
    d.input_dim d.fc1_dim state
  let sv2 := layerNormE (fun i => .criticV s (.bn1w i)) (fun i => .criticV s (.bn1b i))
    d.fc1_dim sv1
  let sv3 := reluEl sv2
  let sv4 := linearE (fun j i => .criticV s (.fc2w j i)) (fun j => .criticV s (.fc2b j))
    d.fc1_dim d.fc2_dim sv3
  let sv5 := layerNormE (fun i => .criticV s (.bn2w i)) (fun i => .criticV s (.bn2b i))
    d.fc2_dim sv4
  let av := reluEl (linearE (fun j i => .criticV s (.avw j i)) (fun j => .criticV s (.avb j))
    d.n_actions d.fc2_dim action)
  let sav := reluEl (List.zipWith Expr.add sv5 av)
  linearE (fun j i => .criticV s (.qw j i)) (fun j => .criticV s (.qb j)) d.fc2_dim 1 sav

/-- The scalar Q-estimate (the single entry of the `q` head's output). -/
noncomputable def criticScalarE (s : NetSide) (d : NetDims) (state action : List (Expr Var)) :
    Expr Var :=
  (criticE s d state action).getD 0 (Expr.const 0)

/-- `Actor.forward` (lines 230-246): `fc1 → bn1 → relu → fc2 → bn2 → relu`,
then `tanh(mu(x))`. -/
noncomputable def actorE (s : NetSide) (d : NetDims) (state : List (Expr Var)) : List (Expr Var) :=
  let x1 := linearE (fun j i => .actorV s (.fc1w j i)) (fun j => .actorV s (.fc1b j))
    d.input_dim d.fc1_dim state
  let x2 := layerNormE (fun i => .actorV s (.bn1w i)) (fun i => .actorV s (.bn1b i))
    d.fc1_dim x1
  let x3 := reluEl x2
  let x4 := linearE (fun j i => .actorV s (.fc2w j i)) (fun j => .actorV s (.fc2b j))
    d.fc1_dim d.fc2_dim x3
  let x5 := layerNormE (fun i => .actorV s (.bn2w i)) (fun i => .actorV s (.bn2b i))
    d.fc2_dim x4
  let x6 := reluEl x5
  (linearE (fun j i => .actorV s (.muw j i)) (fun j => .actorV s (.mub j))
    d.fc2_dim d.n_actions x6).map (Expr.prim .tanhOp)

/-- A `torch` boolean promoted to a float (`True ↦ 1.0`, `False ↦ 0.0`). -/
noncomputable def boolToR (b : Bool) : ℝ := if b then 1 else 0

/-- Lines 408-414 of `train()`, batched:
`target_actions = target_actor.forward(next_states)`,
`target_critic_value = target_critic(next_states, target_actions)`,
`targets = rewards + gamma * not_done * target_critic_value`.
No `detach()`/`no_grad` appears in the source, so the graph through the
target networks is kept. -/
noncomputable def targetsE (d : NetDims) (gamma : ℝ) (rewards : List ℝ) (not_done : List Bool)
    (next_states : List (List ℝ)) : List (Expr Var) :=
  let ns := next_states.map (fun s0 => s0.map Expr.const)
  let target_actions := ns.map (fun s0 => actorE .targetSide d s0)
  let target_critic_value :=
    List.zipWith (fun s0 ta => criticScalarE .targetSide d s0 ta) ns target_actions
  List.zipWith
    (fun rn tcv =>
      Expr.add (Expr.const rn.1)
        (Expr.mul (Expr.mul (Expr.const gamma) (Expr.const (boolToR rn.2))) tcv))
    (rewards.zip not_done) target_critic_value

/-- `critic_value = critic.forward(states, actions)` (line 426), batched. -/
noncomputable def critic_valueE (d : NetDims) (states actions : List (List ℝ)) : List (Expr Var) :=
  List.zipWith
    (fun s0 a0 => criticScalarE .online d (s0.map Expr.const) (a0.map Expr.const))
    states actions

/-- `nn.MSELoss()` (the constructor default, line 283): the mean of the
elementwise squared differences. -/
noncomputable def mseE (input tgt : List (Expr V)) : Expr V :=
  Expr.div
    (sumE (List.zipWith (fun p t => Expr.mul (Expr.sub p t) (Expr.sub p t)) input tgt))
    (Expr.const (List.length input))

/-- `loss = self.critic_criterion(critic_value, targets)` (line 430),
exactly as the code builds it: the targets keep their graph. -/
noncomputable def critic_lossE (d : NetDims) (gamma : ℝ) (states actions : List (List ℝ))
    (rewards : List ℝ) (not_done : List Bool) (next_states : List (List ℝ)) :
    Expr Var :=
  mseE (critic_valueE d states actions) (targetsE d gamma rewards not_done next_states)

/-- The same loss with the targets detached (what the spec describes). -/
noncomputable def critic_loss_detachedE (d : NetDims) (gamma : ℝ) (states actions : List (List ℝ))
    (rewards : List ℝ) (not_done : List Bool) (next_states : List (List ℝ)) :
    Expr Var :=
  mseE (critic_valueE d states actions)
    ((targetsE d gamma rewards not_done next_states).map Expr.stopGrad)

/-! ### Variable-occurrence lemmas for the builders -/

/-- Every expression in the list uses only variables satisfying `P`. -/
def ListUses (P : V → Prop) (l : List (Expr V)) : Prop :=
  ∀ e ∈ l, e.UsesOnly P

theorem mem_zipWith_elim {f : α → β → γ} :
    ∀ {as : List α} {bs : List β} {c : γ}, c ∈ List.zipWith f as bs →
      ∃ a ∈ as, ∃ b ∈ bs, c = f a b := by
  intro as
  induction as with
  | nil => intro bs c hc; simp at hc
  | cons a as ih =>
      intro bs c hc
      cases bs with
      | nil => simp at hc
      | cons b bs =>
          rcases List.mem_cons.mp hc with h | h
          · exact ⟨a, by simp, b, by simp, h⟩
          · rcases ih h with ⟨a', ha', b', hb', rfl⟩
            exact ⟨a', by simp [ha'], b', by simp [hb'], rfl⟩

theorem usesOnly_sumE {P : V → Prop} :
    ∀ {l : List (Expr V)}, ListUses P l → (sumE l).UsesOnly P := by
  intro l
  induction l with
  | nil => intro _; trivial
  | cons e es ih =>
      intro h
      exact ⟨h e (by simp), ih (fun x hx => h x (by simp [hx]))⟩

theorem usesOnly_getD {P : V → Prop} :
    ∀ {l : List (Expr V)}, ListUses P l → ∀ i : ℕ,
      (l.getD i (Expr.const 0)).UsesOnly P := by
  intro l
  induction l with
  | nil => intro _ i; simp [List.getD]; trivial
  | cons e es ih =>
      intro h i
      cases i with
      | zero => simpa using h e (by simp)
      | succ n => simpa using ih (fun x hx => h x (by simp [hx])) n

theorem listUses_map_prim {P : V → Prop} {xs : List (Expr V)} (p : PrimOp)
    (h : ListUses P xs) : ListUses P (xs.map (Expr.prim p)) := by
  intro e he
  rcases List.mem_map.mp he with ⟨x, hx, rfl⟩
  exact h x hx

theorem listUses_reluEl {P : V → Prop} {xs : List (Expr V)} (h : ListUses P xs) :
    ListUses P (reluEl xs) :=
  listUses_map_prim _ h

theorem listUses_linearE {P : V → Prop} {wv : ℕ → ℕ → V} {bv : ℕ → V}
    {nin nout : ℕ} {x : List (Expr V)} (hw : ∀ j i, P (wv j i)) (hb : ∀ j, P (bv j))
    (hx : ListUses P x) : ListUses P (linearE wv bv nin nout x) := by
  intro e he
  rcases List.mem_map.mp he with ⟨j, _, rfl⟩
  refine ⟨usesOnly_sumE ?_, hb j⟩
  intro t ht
  rcases List.mem_map.mp ht with ⟨i, _, rfl⟩
  exact ⟨hw j i, usesOnly_getD hx i⟩

theorem listUses_layerNormE {P : V → Prop} {gv bv : ℕ → V} {dim : ℕ}
    {x : List (Expr V)} (hg : ∀ i, P (gv i)) (hb : ∀ i, P (bv i))
    (hx : ListUses P x) : ListUses P (layerNormE gv bv dim x) := by
  have hmean : (Expr.div (sumE x) (Expr.const (x.length : ℝ))).UsesOnly P :=
    ⟨usesOnly_sumE hx, trivial⟩
  have hdev : ListUses P (x.map fun xi =>
      Expr.sub xi (Expr.div (sumE x) (Expr.const (x.length : ℝ)))) := by
    intro e he
    rcases List.mem_map.mp he with ⟨xi, hxi, rfl⟩
    exact ⟨hx xi hxi, hmean⟩
  intro e he
  simp only [layerNormE] at he
  rcases List.mem_map.mp he with ⟨i, _, rfl⟩
  refine ⟨⟨hg i, usesOnly_getD hdev i, ?_⟩, hb i⟩
  refine ⟨⟨usesOnly_sumE ?_, trivial⟩, trivial⟩
  intro t ht
  rcases List.mem_map.mp ht with ⟨dd, hdd, rfl⟩
  exact ⟨hdev dd hdd, hdev dd hdd⟩

theorem listUses_zipWith_add {P : V → Prop} {l1 l2 : List (Expr V)}
    (h1 : ListUses P l1) (h2 : ListUses P l2) :
    ListUses P (List.zipWith Expr.add l1 l2) := by
  intro e he
  rcases mem_zipWith_elim he with ⟨a, ha, b, hb, rfl⟩
  exact ⟨h1 a ha, h2 b hb⟩

theorem listUses_consts {P : Var → Prop} (l : List ℝ) :
    ListUses P (l.map Expr.const) := by
  intro e he
  rcases List.mem_map.mp he with ⟨c, _, rfl⟩
  trivial

theorem listUses_criticE {P : Var → Prop} (s : NetSide) (d : NetDims)
    {state action : List (Expr Var)} (hp : ∀ p : CriticP, P (Var.criticV s p))
    (hstate : ListUses P state) (haction : ListUses P action) :
    ListUses P (criticE s d state action) := by
  simp only [criticE]
  exact listUses_linearE (fun j i => hp _) (fun j => hp _)
    (listUses_reluEl (listUses_zipWith_add
      (listUses_layerNormE (fun i => hp _) (fun i => hp _)
        (listUses_linearE (fun j i => hp _) (fun j => hp _)
          (listUses_reluEl (listUses_layerNormE (fun i => hp _) (fun i => hp _)
            (listUses_linearE (fun j i => hp _) (fun j => hp _) hstate)))))
      (listUses_reluEl (listUses_linearE (fun j i => hp _) (fun j => hp _) haction))))

theorem listUses_actorE {P : Var → Prop} (s : NetSide) (d : NetDims)
    {state : List (Expr Var)} (hp : ∀ p : ActorP, P (Var.actorV s p))
    (hstate : ListUses P state) : ListUses P (actorE s d state) := by
  simp only [actorE]
  exact listUses_map_prim _
    (listUses_linearE (fun j i => hp _) (fun j => hp _)
      (listUses_reluEl (listUses_layerNormE (fun i => hp _) (fun i => hp _)
        (listUses_linearE (fun j i => hp _) (fun j => hp _)
          (listUses_reluEl (listUses_layerNormE (fun i => hp _) (fun i => hp _)
            (listUses_linearE (fun j i => hp _) (fun j => hp _) hstate)))))))

/-- Every expression produced by the target computation of `train()` uses
only target-network parameters (the batch data enter as constants). -/
theorem listUses_targetsE (d : NetDims) (gamma : ℝ) (rewards : List ℝ)
    (not_done : List Bool) (next_states : List (List ℝ)) :
    ListUses (SideOnly .targetSide) (targetsE d gamma rewards not_done next_states) := by
  intro e he
  simp only [targetsE] at he
  rcases mem_zipWith_elim he with ⟨rn, _, tcv, htcv, rfl⟩
  rcases mem_zipWith_elim htcv with ⟨s0, hs0, ta, hta, rfl⟩
  rcases List.mem_map.mp hs0 with ⟨s1, _, rfl⟩
  rcases List.mem_map.mp hta with ⟨s2, hs2, rfl⟩
  rcases List.mem_map.mp hs2 with ⟨s3, _, rfl⟩
  have hcrit : ∀ p : CriticP, SideOnly .targetSide (Var.criticV .targetSide p) :=
    fun p => rfl
  have hact : ∀ p : ActorP, SideOnly .targetSide (Var.actorV .targetSide p) :=
    fun p => rfl
  refine ⟨trivial, ⟨trivial, trivial⟩, ?_⟩
  exact usesOnly_getD
    (listUses_criticE _ d hcrit (listUses_consts s1)
      (listUses_actorE _ d hact (listUses_consts s3))) 0

/-! ### Detaching the targets does not change any critic gradient -/

/-- The summed squared-error graph has the same value and the same autodiff
gradient in `v` whether or not the targets are detached, provided every
target expression has zero gradient in `v`. -/
theorem sumE_sq_stopGrad [DecidableEq V] (env : V → ℝ) (v : V) :
    ∀ (input tgt : List (Expr V)), (∀ t ∈ tgt, t.adGrad env v = 0) →
    ((sumE (List.zipWith (fun p t => Expr.mul (Expr.sub p t) (Expr.sub p t))
        input (tgt.map Expr.stopGrad))).eval env
      = (sumE (List.zipWith (fun p t => Expr.mul (Expr.sub p t) (Expr.sub p t))
        input tgt)).eval env)
    ∧ ((sumE (List.zipWith (fun p t => Expr.mul (Expr.sub p t) (Expr.sub p t))
        input (tgt.map Expr.stopGrad))).adGrad env v
      = (sumE (List.zipWith (fun p t => Expr.mul (Expr.sub p t) (Expr.sub p t))
        input tgt)).adGrad env v) := by
  intro input
  induction input with
  | nil => intro tgt _; exact ⟨rfl, rfl⟩
  | cons p ps ih =>
      intro tgt h
      cases tgt with
      | nil => exact ⟨rfl, rfl⟩
      | cons t ts =>
          have hts := ih ts (fun x hx => h x (by simp [hx]))
          have ht0 : t.adGrad env v = 0 := h t (by simp)
          constructor
          · simp only [List.map_cons, List.zipWith_cons_cons, sumE, Expr.eval, hts.1]
          · simp only [List.map_cons, List.zipWith_cons_cons, sumE,
              Expr.adGrad, Expr.eval, hts.2, ht0]

/-- Claim C2, as stated: the bootstrapped targets are "computed with no
gradient tracked through the target-network calls".  Counterexample: the
source wraps nothing in `no_grad`/`detach` (`eval()` does not stop
autograd), so the target expression's autodiff gradient with respect to a
target-network parameter is nonzero.  Concretely, with all sizes `1`, all
parameters `0`, `gamma = 1`, one batch element with reward `0`,
continuation mask `True` and next state `[0]`, the gradient of the target
in the target critic's `q`-bias is `1`, not `0`. -/
theorem C2_target_grad_tracked_cex :
    ((targetsE ⟨1, 1, 1, 1⟩ 1 [0] [true] [[0]]).getD 0 (Expr.const 0)).adGrad
        (fun _ => (0 : ℝ)) (Var.criticV NetSide.targetSide (CriticP.qb 0)) ≠ 0 := by
  norm_num [targetsE, criticScalarE, criticE, actorE, linearE, layerNormE, reluEl,
    sumE, Expr.adGrad, Expr.eval, evalPrim, evalPrimDeriv, boolToR, List.range_succ,
    List.range_zero, List.zip]

/-- Claim C2, amended: the code tracks gradients through the target-network
calls (no `no_grad`/`detach` appears), but the critic parameter update is
nevertheless exactly the one obtained with detached targets: for every
parameter assignment and every online-critic parameter, the autodiff
gradient of the critic loss equals that of the loss with `stopGrad` applied
to the targets (the targets' graph touches only target-network parameters,
which are disjoint from the critic's), and the target networks receive no
optimizer step — the only steps in `train()` are on the agent's two
optimizers, over online-critic and online-actor parameters. -/
theorem C2_critic_grad_as_if_detached (env : Var → ℝ) (d : NetDims) (gamma : ℝ)
    (states actions : List (List ℝ)) (rewards : List ℝ) (not_done : List Bool)
    (next_states : List (List ℝ)) (p : CriticP) :
    ((critic_lossE d gamma states actions rewards not_done next_states).adGrad env
        (Var.criticV NetSide.online p)
      = (critic_loss_detachedE d gamma states actions rewards not_done next_states).adGrad env
        (Var.criticV NetSide.online p))
    ∧ DDPGagent.train_events.filter TrainEvent.isOptStep
        = [TrainEvent.opt_step OptTag.critic_opt, TrainEvent.opt_step OptTag.actor_opt] := by
  constructor
  · have hT : ∀ t ∈ targetsE d gamma rewards not_done next_states,
        t.adGrad env (Var.criticV NetSide.online p) = 0 := by
      intro t ht
      refine Expr.adGrad_eq_zero (P := SideOnly .targetSide) env _ ?_ t
        (listUses_targetsE d gamma rewards not_done next_states t ht)
      simp [SideOnly, Var.side]
    have key := sumE_sq_stopGrad env (Var.criticV NetSide.online p)
      (critic_valueE d states actions) (targetsE d gamma rewards not_done next_states) hT
    simp only [critic_lossE, critic_loss_detachedE, mseE, Expr.adGrad, Expr.eval,
      List.length_map]
    rw [key.1, key.2]
  · decide

/-! ### Pointwise reading of the batched computations -/

theorem getD_map_of_lt (f : α → β) :
    ∀ (l : List α) (i : ℕ) (da : α) (db : β), i < l.length →
      (l.map f).getD i db = f (l.getD i da) := by
  intro l
  induction l with
  | nil => intro i da db h; simp at h
  | cons x xs ih =>
      intro i da db h
      cases i with
      | zero => simp
      | succ n =>
          simp only [List.map_cons, List.getD_cons_succ]
          exact ih n da db (by simp only [List.length_cons] at h; omega)

theorem getD_zipWith_of_lt (f : α → β → γ) :
    ∀ (as : List α) (bs : List β) (i : ℕ) (da : α) (db : β) (dc : γ),
      i < as.length → i < bs.length →
      (List.zipWith f as bs).getD i dc = f (as.getD i da) (bs.getD i db) := by
  intro as
  induction as with
  | nil => intro bs i da db dc ha _; simp at ha
  | cons a as ih =>
      intro bs i da db dc ha hb
      cases bs with
      | nil => simp at hb
      | cons b bs =>
          cases i with
          | zero => simp
          | succ n =>
              simp only [List.zipWith_cons_cons, List.getD_cons_succ]
              exact ih bs n da db dc (by simp only [List.length_cons] at ha; omega)
                (by simp only [List.length_cons] at hb; omega)

theorem eval_sumE (env : V → ℝ) : ∀ l : List (Expr V),
    (sumE l).eval env = (l.map (fun e => e.eval env)).sum := by
  intro l
  induction l with
  | nil => simp [sumE, Expr.eval]
  | cons e es ih => simp [sumE, Expr.eval, ih]

theorem map_eval_zipWith_sq (env : V → ℝ) :
    ∀ (input tgt : List (Expr V)),
      (List.zipWith (fun p t => Expr.mul (Expr.sub p t) (Expr.sub p t)) input tgt).map
          (fun e => e.eval env)
        = List.zipWith (fun p t => (p.eval env - t.eval env) ^ 2) input tgt := by
  intro input
  induction input with
  | nil => intro tgt; simp
  | cons p ps ih =>
      intro tgt
      cases tgt with
      | nil => simp
      | cons t ts => simp [Expr.eval, ih, pow_two]

/-- The `i`-th target expression built by lines 408-414 is literally
`reward_i + gamma * not_done_i * target_critic(ns_i, target_actor(ns_i))`. -/
theorem targetsE_getD (d : NetDims) (gamma : ℝ) (rewards : List ℝ)
    (not_done : List Bool) (next_states : List (List ℝ)) (i : ℕ)
    (hnd : not_done.length = rewards.length)
    (hns : next_states.length = rewards.length) (hi : i < rewards.length) :
    (targetsE d gamma rewards not_done next_states).getD i (Expr.const 0)
      = Expr.add (Expr.const (rewards.getD i 0))
          (Expr.mul
            (Expr.mul (Expr.const gamma) (Expr.const (boolToR (not_done.getD i false))))
            (criticScalarE .targetSide d ((next_states.getD i []).map Expr.const)
              (actorE .targetSide d ((next_states.getD i []).map Expr.const)))) := by
  simp only [targetsE]
  rw [getD_zipWith_of_lt _ _ _ _ ((0 : ℝ), false) (Expr.const 0) _
      (by rw [List.length_zip]; omega)
      (by simp only [List.length_zipWith, List.length_map]; omega)]
  have hzip : (rewards.zip not_done).getD i ((0 : ℝ), false)
      = (rewards.getD i 0, not_done.getD i false) := by
    have : rewards.zip not_done = List.zipWith Prod.mk rewards not_done := rfl
    rw [this, getD_zipWith_of_lt Prod.mk rewards not_done i 0 false ((0 : ℝ), false)
      hi (by omega)]
  rw [hzip]
  rw [getD_zipWith_of_lt _ _ _ _ ([] : List (Expr Var)) (actorE .targetSide d [])
      (Expr.const 0) (by simp only [List.length_map]; omega)
      (by simp only [List.length_map]; omega)]
  rw [getD_map_of_lt _ next_states i ([] : List ℝ) ([] : List (Expr Var)) (by omega)]
  rw [getD_map_of_lt _ (next_states.map (fun s0 => s0.map Expr.const)) i
      ([] : List (Expr Var)) (actorE .targetSide d []) (by simp only [List.length_map]; omega)]
  rw [getD_map_of_lt _ next_states i ([] : List ℝ) ([] : List (Expr Var)) (by omega)]

/-- Claim C5: in a `train()` call past the guard, (i) each bootstrapped
target equals `reward + gamma * not_done * target_critic(next_state,
target_actor(next_state))`; (ii) the critic loss is the mean of the squared
differences between `critic(state, action)` and these targets (the
constructor-default `nn.MSELoss()`); and (iii) the trace of `train()`
contains exactly one step of the critic optimizer and one of the actor
optimizer, with the critic step after the critic-loss backward and before
the actor-loss backward, so the critic step is driven by the critic loss
alone and no other parameters (target networks have no optimizer, the
actor's step comes only after its own loss). -/
theorem C5_train_step (env : Var → ℝ) (d : NetDims) (gamma : ℝ)
    (states actions : List (List ℝ)) (rewards : List ℝ) (not_done : List Bool)
    (next_states : List (List ℝ)) (i : ℕ)
    (hnd : not_done.length = rewards.length)
    (hns : next_states.length = rewards.length)
    (hi : i < rewards.length) :
    (((targetsE d gamma rewards not_done next_states).getD i (Expr.const 0)).eval env
      = rewards.getD i 0
        + gamma * boolToR (not_done.getD i false)
          * (criticScalarE .targetSide d ((next_states.getD i []).map Expr.const)
              (actorE .targetSide d ((next_states.getD i []).map Expr.const))).eval env)
    ∧ ((critic_lossE d gamma states actions rewards not_done next_states).eval env
        = (List.zipWith (fun q t => (q.eval env - t.eval env) ^ 2)
            (critic_valueE d states actions)
            (targetsE d gamma rewards not_done next_states)).sum
          / ((critic_valueE d states actions).length : ℝ))
    ∧ DDPGagent.train_events.count (TrainEvent.opt_step OptTag.critic_opt) = 1
    ∧ DDPGagent.train_events.count (TrainEvent.opt_step OptTag.actor_opt) = 1
    ∧ DDPGagent.train_events.indexOf (TrainEvent.backward_pass LossTag.critic_loss)
        < DDPGagent.train_events.indexOf (TrainEvent.opt_step OptTag.critic_opt)
    ∧ DDPGagent.train_events.indexOf (TrainEvent.opt_step OptTag.critic_opt)
        < DDPGagent.train_events.indexOf (TrainEvent.backward_pass LossTag.actor_loss)
    ∧ DDPGagent.train_events.indexOf (TrainEvent.backward_pass LossTag.actor_loss)
        < DDPGagent.train_events.indexOf (TrainEvent.opt_step OptTag.actor_opt) := by
  refine ⟨?_, ?_, by decide, by decide, by decide, by decide, by decide⟩
  · rw [targetsE_getD d gamma rewards not_done next_states i hnd hns hi]
    simp [Expr.eval]
  · simp only [critic_lossE, mseE, Expr.eval, eval_sumE, map_eval_zipWith_sq]

theorem C5_train_step_witness :
    ((targetsE ⟨1, 1, 1, 1⟩ 1 [0] [false] [[0]]).getD 0 (Expr.const 0)).eval
        (fun _ => (0 : ℝ))
      = [(0 : ℝ)].getD 0 0
        + 1 * boolToR ([false].getD 0 false)
          * (criticScalarE .targetSide ⟨1, 1, 1, 1⟩
              (([[(0 : ℝ)]].getD 0 []).map Expr.const)
              (actorE .targetSide ⟨1, 1, 1, 1⟩
                (([[(0 : ℝ)]].getD 0 []).map Expr.const))).eval (fun _ => (0 : ℝ)) :=
  (C5_train_step (fun _ => (0 : ℝ)) ⟨1, 1, 1, 1⟩ 1 [[0]] [[0]] [0] [false] [[0]] 0
    rfl rfl Nat.one_pos).1

/-! ### Bounded actor output (`get_action`, lines 369-379) -/

/-- `Actor.forward` evaluated at a parameter assignment: the real-valued
output of the network on the given state. -/
noncomputable def Actor.forwardR (env : Var → ℝ) (s : NetSide) (d : NetDims)
    (state : List ℝ) : List ℝ :=
  (actorE s d (state.map Expr.const)).map (fun e => e.eval env)

/-- `DDPGagent.get_action` (lines 369-379): switch the actor to `eval`
mode (a mode flag only — `LayerNorm` is per-sample, so no numeric effect),
run the online actor forward, detach, and return the plain vector. -/
noncomputable def DDPGagent.get_action (env : Var → ℝ) (d : NetDims)
    (observation : List ℝ) : List ℝ :=
  Actor.forwardR env .online d observation

theorem tanh_bounds (x : ℝ) : -1 ≤ Real.tanh x ∧ Real.tanh x ≤ 1 := by
  rw [Real.tanh_eq_sinh_div_cosh]
  constructor
  · have h1 : -Real.sinh x < Real.cosh x := by
      have h := Real.sinh_lt_cosh (-x)
      rwa [Real.sinh_neg, Real.cosh_neg] at h
    have h2 : -Real.sinh x / Real.cosh x ≤ 1 :=
      (div_le_one (Real.cosh_pos x)).mpr h1.le
    rw [neg_div] at h2
    exact neg_le.mp h2
  · exact (div_le_one (Real.cosh_pos x)).mpr (Real.sinh_lt_cosh x).le

/-- Claim C9: every component of `Actor.forward` — and hence of the vector
returned by `get_action` — lies in `[-1, 1]`, for every parameter
assignment (in particular a freshly initialized one), every side, and every
real input state, because the last operation is `torch.tanh`. -/
theorem C9_action_bounded (env : Var → ℝ) (d : NetDims) (s : NetSide)
    (state : List ℝ) :
    (∀ y ∈ Actor.forwardR env s d state, -1 ≤ y ∧ y ≤ 1)
    ∧ (∀ y ∈ DDPGagent.get_action env d state, -1 ≤ y ∧ y ≤ 1) := by
  have hmain : ∀ (s' : NetSide), ∀ y ∈ Actor.forwardR env s' d state, -1 ≤ y ∧ y ≤ 1 := by
    intro s' y hy
    simp only [Actor.forwardR] at hy
    rcases List.mem_map.mp hy with ⟨e, he, rfl⟩
    simp only [actorE] at he
    rcases List.mem_map.mp he with ⟨e', _, rfl⟩
    simpa [Expr.eval, evalPrim] using tanh_bounds (e'.eval env)
  exact ⟨hmain s, fun y hy => hmain .online y hy⟩

/-- The first component of a concrete `get_action` call
(all parameters `0`, all sizes `1`, observation `[0]`). -/
noncomputable def yC9 : ℝ :=
  (DDPGagent.get_action (fun _ => (0 : ℝ)) ⟨1, 1, 1, 1⟩ [0]).getD 0 0

theorem C9_action_bounded_witness :
    yC9 ∈ DDPGagent.get_action (fun _ => (0 : ℝ)) ⟨1, 1, 1, 1⟩ [0]
    ∧ (-1 ≤ yC9 ∧ yC9 ≤ 1) := by
  have hlen : 0 < (DDPGagent.get_action (fun _ => (0 : ℝ)) ⟨1, 1, 1, 1⟩ [0]).length := by
    simp [DDPGagent.get_action, Actor.forwardR, actorE, linearE]
  have hmem : yC9 ∈ DDPGagent.get_action (fun _ => (0 : ℝ)) ⟨1, 1, 1, 1⟩ [0] := by
    unfold yC9
    rw [List.getD_eq_getElem _ _ hlen]
    exact List.getElem_mem hlen
  exact ⟨hmem,
    (C9_action_bounded (fun _ => (0 : ℝ)) ⟨1, 1, 1, 1⟩ NetSide.online [0]).2 yC9 hmem⟩

end DDPG
